import Mathlib

/-!
A verification development for the FSI coupling layer of OpenIFEM
(`source/hyper_elasticity.cpp` and the shared MPI solid solvers).

The C++ code is shallowly embedded: `double` arithmetic is modelled by exact
rational arithmetic (`ℚ`), `dealii::Point<dim>` / `Tensor<1,dim>` by functions
`Fin d → ℚ`, `Tensor<2,dim>` by `Fin d → Fin d → ℚ`, fallible routines by
`Except String`, and `AssertThrow` by an `Except.error` carrying the message.
Every definition is translated statement by statement from the source function
it names; definitions whose doc comment says so are instead written from the
specification text, for comparison with the code.
-/

/-- A 2-D point, modelling `dealii::Point<2>` with exact coordinates. -/
structure Pt2 where
  x : ℚ
  y : ℚ
deriving DecidableEq

/-- The cached solid bounding box `solid_box` (a vector of `2*dim` scalars,
here for `dim = 2`): `solid_box(0) = xmin`, `solid_box(1) = xmax`,
`solid_box(2) = ymin`, `solid_box(3) = ymax`. -/
structure SolidBox where
  xmin : ℚ
  xmax : ℚ
  ymin : ℚ
  ymax : ℚ
deriving DecidableEq

/-- A solid boundary segment: the pair `(vertex(0), vertex(1))` of one entry of
`solid_boundaries` collected by `FSI::collect_solid_boundaries`. -/
abbrev Segment := Pt2 × Pt2

/-- The body of the `solid_boundaries` loop of `MPI::FSI<2>::point_in_solid`
(`source/hyper_elasticity.cpp:705-757`) for a single boundary face.
`none` models the early `return true;` paths (point on the boundary or on a
vertex); `some (dc, dh)` gives the increments of `cross_number` and
`half_cross_number`. -/
def segmentStep (box : SolidBox) (point : Pt2) (s : Segment) : Option (ℕ × ℕ) :=
  let p1 := s.1
  let p2 := s.2
  let y_diff1 := p1.y - point.y
  let y_diff2 := p2.y - point.y
  let x_diff1 := p1.x - point.x
  let x_diff2 := p2.x - point.x
  let r1x := p1.x - p2.x
  let r1y := p1.y - p2.y
  -- r1[1] == 0 if the boundary is horizontal; r2 stays zero in that case
  let r2x := if r1y ≠ 0 then r1x * (point.y - p2.y) / r1y else 0
  if y_diff1 * y_diff2 < 0 then
    -- Point is on the left of the boundary
    if r2x + p2.x > point.x then some (1, 0)
    -- Point is on the boundary
    else if r2x + p2.x = point.x then none
    else some (0, 0)
  -- Point is on the same horizontal line with one of the vertices
  else if y_diff1 * y_diff2 = 0 then
    -- The boundary is horizontal
    if y_diff1 = 0 ∧ y_diff2 = 0 then
      -- The point is on it, else the point is not on it
      if x_diff1 * x_diff2 < 0 then none else some (0, 0)
    -- On the left of the boundary: the point must not be on the top or
    -- bottom of the box (because it can be tangential)
    else if r2x + p2.x > point.x then
      if point.y ≠ box.ymin ∧ point.y ≠ box.ymax then some (0, 1) else some (0, 0)
    -- Point overlaps with the vertex
    else if point = p1 ∨ point = p2 then none
    else some (0, 0)
  else some (0, 0)

/-- The full loop over `solid_boundaries`, accumulating `cross_number` and
`half_cross_number`; `none` models the early `return true`. -/
def crossingLoop (box : SolidBox) (point : Pt2) :
    List Segment → ℕ → ℕ → Option (ℕ × ℕ)
  | [], c, h => some (c, h)
  | s :: rest, c, h =>
    match segmentStep box point s with
    | none => none
    | some (dc, dh) => crossingLoop box point rest (c + dc) (h + dh)

/-- The bounding-box pre-filter of `MPI::FSI<dim>::point_in_solid`
(`source/hyper_elasticity.cpp:694-698`): the point is accepted only when every
coordinate lies within the cached box (boundary values included, since the
source rejects with strict `<` and `>`). -/
def inSolidBox (box : SolidBox) (point : Pt2) : Bool :=
  if point.x < box.xmin ∨ point.x > box.xmax then false
  else if point.y < box.ymin ∨ point.y > box.ymax then false
  else true

/-- `MPI::FSI<2>::point_in_solid` (`source/hyper_elasticity.cpp:689-762`):
bounding-box rejection, then the signed-crossing count over the solid
boundary segments, with `cross_number += half_cross_number / 2` (integer
division) and an odd total meaning inside. -/
def point_in_solid (box : SolidBox) (segs : List Segment) (point : Pt2) : Bool :=
  if point.x < box.xmin ∨ point.x > box.xmax then false
  else if point.y < box.ymin ∨ point.y > box.ymax then false
  else
    match crossingLoop box point segs 0 0 with
    | none => true
    | some (c, h) => decide ((c + h / 2) % 2 = 1)

/-- Bounding box of the unit square. -/
def unitBox : SolidBox := ⟨0, 1, 0, 1⟩

/-- The boundary of the unit square as four segments (a convex solid). -/
def unitSquareSegs : List Segment :=
  [(⟨0,0⟩, ⟨1,0⟩), (⟨1,0⟩, ⟨1,1⟩), (⟨1,1⟩, ⟨0,1⟩), (⟨0,1⟩, ⟨0,0⟩)]

/-- The unit square with its bottom edge split into two collinear horizontal
segments meeting at the boundary vertex `(1/2, 0)`. -/
def splitSquareSegs : List Segment :=
  [(⟨0,0⟩, ⟨1/2,0⟩), (⟨1/2,0⟩, ⟨1,0⟩), (⟨1,0⟩, ⟨1,1⟩), (⟨1,1⟩, ⟨0,1⟩), (⟨0,1⟩, ⟨0,0⟩)]

lemma point_in_solid_outside_box (box : SolidBox) (segs : List Segment) (pt : Pt2)
    (h : inSolidBox box pt = false) : point_in_solid box segs pt = false := by
  unfold inSolidBox at h
  unfold point_in_solid
  by_cases hx : pt.x < box.xmin ∨ pt.x > box.xmax
  · rw [if_pos hx]
  · rw [if_neg hx] at h ⊢
    by_cases hy : pt.y < box.ymin ∨ pt.y > box.ymax
    · rw [if_pos hy]
    · rw [if_neg hy] at h
      exact absurd h (by simp)

lemma point_in_solid_count (box : SolidBox) (segs : List Segment) (pt : Pt2)
    (c h : ℕ) (hb : inSolidBox box pt = true)
    (hc : crossingLoop box pt segs 0 0 = some (c, h)) :
    (point_in_solid box segs pt = true ↔ (c + h / 2) % 2 = 1) := by
  unfold inSolidBox at hb
  unfold point_in_solid
  by_cases hx : pt.x < box.xmin ∨ pt.x > box.xmax
  · rw [if_pos hx] at hb; exact absurd hb (by simp)
  · rw [if_neg hx] at hb ⊢
    by_cases hy : pt.y < box.ymin ∨ pt.y > box.ymax
    · rw [if_pos hy] at hb; exact absurd hb (by simp)
    · rw [if_neg hy, hc]
      simp

lemma segmentStep_vertex (box : SolidBox) (pt : Pt2) (s : Segment)
    (hv : pt = s.1 ∨ pt = s.2) (hh : s.1.y ≠ s.2.y) :
    segmentStep box pt s = none := by
  obtain ⟨p1, p2⟩ := s
  simp only at hh
  have hr1y : p1.y - p2.y ≠ 0 := sub_ne_zero.mpr hh
  rcases hv with rfl | rfl
  · -- the query point is vertex(0) of the segment
    unfold segmentStep
    simp only [hr1y, if_true, sub_self, zero_mul, if_neg (lt_irrefl (0 : ℚ)),
      if_pos rfl]
    rw [if_neg (by rintro ⟨-, h2⟩; exact hh (sub_eq_zero.mp h2).symm)]
    rw [if_pos hr1y]
    rw [if_neg (by intro hgt; rw [mul_div_cancel_right₀ _ hr1y] at hgt; linarith)]
    rw [if_pos (Or.inl trivial)]
  · -- the query point is vertex(1) of the segment
    unfold segmentStep
    simp only [hr1y, if_true, sub_self, mul_zero, if_neg (lt_irrefl (0 : ℚ)),
      if_pos rfl]
    rw [if_neg (by simp)]
    rw [if_neg (by simp)]
    rw [if_pos (Or.inr trivial)]

lemma crossingLoop_of_mem_none (box : SolidBox) (pt : Pt2) :
    ∀ (segs : List Segment) (c h : ℕ),
      (∃ s ∈ segs, segmentStep box pt s = none) →
      crossingLoop box pt segs c h = none := by
  intro segs
  induction segs with
  | nil => intro c h hex; simp at hex
  | cons s rest ih =>
    intro c h hex
    obtain ⟨t, ht, hnone⟩ := hex
    unfold crossingLoop
    rcases List.mem_cons.mp ht with rfl | hmem
    · rw [hnone]
    · cases hstep : segmentStep box pt s with
      | none => rfl
      | some pr =>
        obtain ⟨dc, dh⟩ := pr
        exact ih _ _ ⟨t, hmem, hnone⟩

lemma point_in_solid_vertex (box : SolidBox) (segs : List Segment) (pt : Pt2)
    (s : Segment) (hs : s ∈ segs) (hv : pt = s.1 ∨ pt = s.2)
    (hh : s.1.y ≠ s.2.y) (hb : inSolidBox box pt = true) :
    point_in_solid box segs pt = true := by
  unfold inSolidBox at hb
  unfold point_in_solid
  by_cases hx : pt.x < box.xmin ∨ pt.x > box.xmax
  · rw [if_pos hx] at hb; exact absurd hb (by simp)
  · rw [if_neg hx] at hb ⊢
    by_cases hy : pt.y < box.ymin ∨ pt.y > box.ymax
    · rw [if_pos hy] at hb; exact absurd hb (by simp)
    · rw [if_neg hy,
        crossingLoop_of_mem_none box pt segs 0 0
          ⟨s, hs, segmentStep_vertex box pt s hv hh⟩]

/-- C3, amended. (i) A point with any coordinate strictly outside the cached
solid bounding box is classified outside, for every boundary-segment list
(so without consulting the segments). (ii) For a point accepted by the box
filter whose segment scan completes with `cross_number = c` and
`half_cross_number = h`, the result is true exactly when `c + h / 2` is odd
(`/` the integer floor division of the source). (iii) A point lying exactly on
a vertex of a non-horizontal boundary segment is classified inside (for the
claim's unrestricted vertex statement see the counterexample). (iv) For the
unit square, the centroid is inside and a far-away point outside. -/
theorem claim_C3_point_in_solid :
    (∀ (box : SolidBox) (segs : List Segment) (pt : Pt2),
      inSolidBox box pt = false → point_in_solid box segs pt = false) ∧
    (∀ (box : SolidBox) (segs : List Segment) (pt : Pt2) (c h : ℕ),
      inSolidBox box pt = true → crossingLoop box pt segs 0 0 = some (c, h) →
      (point_in_solid box segs pt = true ↔ (c + h / 2) % 2 = 1)) ∧
    (∀ (box : SolidBox) (segs : List Segment) (pt : Pt2) (s : Segment),
      s ∈ segs → (pt = s.1 ∨ pt = s.2) → s.1.y ≠ s.2.y →
      inSolidBox box pt = true → point_in_solid box segs pt = true) ∧
    point_in_solid unitBox unitSquareSegs ⟨1/2, 1/2⟩ = true ∧
    point_in_solid unitBox unitSquareSegs ⟨5, 5⟩ = false := by
  refine ⟨point_in_solid_outside_box, point_in_solid_count,
    fun box segs pt s hs hv hh hb =>
      point_in_solid_vertex box segs pt s hs hv hh hb, ?_, ?_⟩
  · norm_num [point_in_solid, unitBox, unitSquareSegs, crossingLoop,
      segmentStep, Pt2.mk.injEq]
  · norm_num [point_in_solid, unitBox]

/-- Witness for `claim_C3_point_in_solid`: each hypothesis discharged at a
concrete input. The far corner `(5, 5)` fails the box filter; the centroid's
scan ends with one full crossing and no half-crossings; `(0, 0)` is a vertex
of the left (vertical) edge of the unit square. -/
theorem claim_C3_point_in_solid_witness :
    point_in_solid unitBox unitSquareSegs ⟨5, 5⟩ = false ∧
    (point_in_solid unitBox unitSquareSegs ⟨1/2, 1/2⟩ = true ↔
      (1 + 0 / 2) % 2 = 1) ∧
    point_in_solid unitBox unitSquareSegs ⟨0, 0⟩ = true := by
  refine ⟨claim_C3_point_in_solid.1 unitBox unitSquareSegs ⟨5, 5⟩
      (by norm_num [inSolidBox, unitBox]),
    claim_C3_point_in_solid.2.1 unitBox unitSquareSegs ⟨1/2, 1/2⟩ 1 0
      (by norm_num [inSolidBox, unitBox])
      (by norm_num [crossingLoop, segmentStep, unitSquareSegs, unitBox,
        Pt2.mk.injEq]),
    claim_C3_point_in_solid.2.2.1 unitBox unitSquareSegs ⟨0, 0⟩
      (⟨⟨0,1⟩, ⟨0,0⟩⟩ : Segment)
      (by norm_num [unitSquareSegs]) (Or.inr rfl) (by norm_num)
      (by norm_num [inSolidBox, unitBox])⟩

/-- C3, counterexample to the unrestricted vertex clause: on the unit square
whose bottom edge is split into two collinear horizontal segments, the shared
boundary vertex `(1/2, 0)` lies within the bounding box and is a vertex of a
boundary segment, yet `point_in_solid` classifies it outside. -/
theorem claim_C3_counterexample :
    ((⟨1/2, 0⟩ : Pt2) = ((⟨1/2,0⟩, ⟨1,0⟩) : Segment).1) ∧
    ((⟨1/2,0⟩, ⟨1,0⟩) : Segment) ∈ splitSquareSegs ∧
    inSolidBox unitBox ⟨1/2, 0⟩ = true ∧
    point_in_solid unitBox splitSquareSegs ⟨1/2, 0⟩ = false := by
  refine ⟨rfl, by norm_num [splitSquareSegs], by norm_num [inSolidBox, unitBox], ?_⟩
  norm_num [point_in_solid, unitBox, splitSquareSegs, crossingLoop,
    segmentStep, Pt2.mk.injEq]

/-- Points of a `dim`-dimensional mesh, with exact coordinates. -/
abbrev PointV (d : ℕ) := Fin d → ℚ

/-- The inner vertex loop of `MPI::FSI<dim>::move_solid_mesh`
(`source/hyper_elasticity.cpp:620-641`) over the vertices of one cell:
a vertex not yet in the `vertex_touched` set is marked and its position is
moved by the nodal displacement, forward (`+=`) or backward (`-=`).
The displacement of a vertex is read from the gathered displacement vector
through `vertex_dof_index`, which depends only on the vertex index, so it is
modelled as a function of the vertex index. -/
def moveVertexLoop {V : Type} [AddCommGroup V] (move_forward : Bool)
    (disp : ℕ → V) : List ℕ → Finset ℕ × (ℕ → V) → Finset ℕ × (ℕ → V)
  | [], st => st
  | v :: vs, st =>
    if v ∈ st.1 then moveVertexLoop move_forward disp vs st
    else
      moveVertexLoop move_forward disp vs
        (insert v st.1,
         Function.update st.2 v
           (if move_forward then st.2 v + disp v else st.2 v - disp v))

/-- `MPI::FSI<dim>::move_solid_mesh` (`source/hyper_elasticity.cpp:606-642`):
the cell loop over the solid mesh, threading the `vertex_touched` set (empty
at entry) and the vertex positions. A cell is its list of vertex indices. -/
def move_solid_mesh {V : Type} [AddCommGroup V] (move_forward : Bool)
    (cells : List (List ℕ)) (disp : ℕ → V) (pos : ℕ → V) : ℕ → V :=
  (cells.foldl (fun st c => moveVertexLoop move_forward disp c st) (∅, pos)).2

/-- The set of vertex indices appearing in some cell of the mesh. -/
def meshVertexSet : List (List ℕ) → Finset ℕ
  | [] => ∅
  | c :: cs => c.toFinset ∪ meshVertexSet cs


lemma moveVertexLoop_spec {V : Type} [AddCommGroup V] (fwd : Bool)
    (disp : ℕ → V) :
    ∀ (vs : List ℕ) (tch : Finset ℕ) (pos : ℕ → V),
      moveVertexLoop fwd disp vs (tch, pos) =
        (tch ∪ vs.toFinset,
         fun w => if w ∈ tch ∨ w ∉ vs.toFinset then pos w
                  else if fwd then pos w + disp w else pos w - disp w) := by
  intro vs
  induction vs with
  | nil =>
    intro tch pos
    refine Prod.ext (by simp [moveVertexLoop]) ?_
    funext w
    simp [moveVertexLoop]
  | cons v vs ih =>
    intro tch pos
    by_cases hv : v ∈ tch
    · have hstep : moveVertexLoop fwd disp (v :: vs) (tch, pos)
          = moveVertexLoop fwd disp vs (tch, pos) := by
        rw [moveVertexLoop]
        exact if_pos hv
      rw [hstep, ih]
      refine Prod.ext ?_ ?_
      · dsimp only
        rw [List.toFinset_cons, Finset.union_insert, Finset.insert_eq_self.mpr
          (Finset.mem_union_left _ hv)]
      · funext w
        dsimp only
        by_cases hw : w = v
        · subst hw
          rw [if_pos (Or.inl hv), if_pos (Or.inl hv)]
        · simp only [List.toFinset_cons, Finset.mem_insert, hw, false_or]
    · have hstep : moveVertexLoop fwd disp (v :: vs) (tch, pos)
          = moveVertexLoop fwd disp vs
              (insert v tch,
               Function.update pos v
                 (if fwd then pos v + disp v else pos v - disp v)) := by
        rw [moveVertexLoop]
        exact if_neg hv
      rw [hstep, ih]
      refine Prod.ext ?_ ?_
      · dsimp only
        rw [List.toFinset_cons, Finset.union_insert, Finset.insert_union]
      · funext w
        dsimp only
        by_cases hw : w = v
        · subst hw
          rw [if_pos (Or.inl (Finset.mem_insert_self w tch)),
            Function.update_same,
            if_neg (show ¬(w ∈ tch ∨ w ∉ (w :: vs).toFinset) by
              push_neg; exact ⟨hv, by simp⟩)]
        · simp only [Finset.mem_insert, hw, false_or, List.toFinset_cons,
            Function.update_noteq hw]

lemma move_fold_spec {V : Type} [AddCommGroup V] (fwd : Bool) (disp : ℕ → V) :
    ∀ (cells : List (List ℕ)) (tch : Finset ℕ) (pos : ℕ → V),
      cells.foldl (fun st c => moveVertexLoop fwd disp c st) (tch, pos) =
        (tch ∪ meshVertexSet cells,
         fun w => if w ∈ tch ∨ w ∉ meshVertexSet cells then pos w
                  else if fwd then pos w + disp w else pos w - disp w) := by
  intro cells
  induction cells with
  | nil =>
    intro tch pos
    refine Prod.ext (by simp [meshVertexSet]) ?_
    funext w
    simp [meshVertexSet]
  | cons c cs ih =>
    intro tch pos
    rw [List.foldl_cons]
    show List.foldl _ (moveVertexLoop fwd disp c (tch, pos)) cs = _
    rw [moveVertexLoop_spec, ih]
    refine Prod.ext ?_ ?_
    · dsimp only
      simp only [meshVertexSet]
      rw [Finset.union_assoc]
    · funext w
      dsimp only
      simp only [meshVertexSet, Finset.mem_union]
      by_cases h1 : w ∈ tch
      · simp [h1]
      · by_cases h2 : w ∈ c.toFinset
        · simp [h1, h2]
        · by_cases h3 : w ∈ meshVertexSet cs
          · simp [h1, h2, h3]
          · simp [h1, h2, h3]

/-- C6: moving the solid mesh forward by any nodal displacement field and then
backward restores every vertex position exactly; the forward call adds the
displacement to every vertex that appears in some cell exactly once (vertices
shared between cells are moved only once, through the touched set) and leaves
all other positions unchanged. -/
theorem claim_C6_move_solid_mesh :
    (∀ (d : ℕ) (cells : List (List ℕ)) (disp pos : ℕ → PointV d),
      move_solid_mesh false cells disp (move_solid_mesh true cells disp pos)
        = pos) ∧
    (∀ (d : ℕ) (cells : List (List ℕ)) (disp pos : ℕ → PointV d) (w : ℕ),
      (w ∈ meshVertexSet cells →
        move_solid_mesh true cells disp pos w = pos w + disp w) ∧
      (w ∉ meshVertexSet cells →
        move_solid_mesh true cells disp pos w = pos w)) := by
  constructor
  · intro d cells disp pos
    unfold move_solid_mesh
    rw [move_fold_spec, move_fold_spec]
    funext w
    dsimp only
    by_cases h : w ∈ meshVertexSet cells
    · simp [h]
    · simp [h]
  · intro d cells disp pos w
    constructor
    · intro h
      unfold move_solid_mesh
      rw [move_fold_spec]
      dsimp only
      simp [h]
    · intro h
      unfold move_solid_mesh
      rw [move_fold_spec]
      dsimp only
      simp [h]

/-- Concrete two-cell 2-D mesh sharing vertex 1, for the C6 witness. -/
def c6cells : List (List ℕ) := [[0, 1], [1, 2]]

/-- Concrete nonzero displacement field for the C6 witness. -/
def c6disp : ℕ → PointV 2 := fun v _ => (v : ℚ) + 1

/-- Concrete initial vertex positions for the C6 witness. -/
def c6pos : ℕ → PointV 2 := fun _ _ => 0

/-- Witness for `claim_C6_move_solid_mesh` on a concrete 2-D two-cell mesh
sharing vertex 1, with a nonzero displacement field. -/
theorem claim_C6_move_solid_mesh_witness :
    (move_solid_mesh false c6cells c6disp
        (move_solid_mesh true c6cells c6disp c6pos) = c6pos) ∧
    move_solid_mesh true c6cells c6disp c6pos 1 = c6pos 1 + c6disp 1 ∧
    move_solid_mesh true c6cells c6disp c6pos 7 = c6pos 7 := by
  refine ⟨claim_C6_move_solid_mesh.1 2 c6cells c6disp c6pos, ?_, ?_⟩
  · exact (claim_C6_move_solid_mesh.2 2 c6cells c6disp c6pos 1).1
      (by decide)
  · exact (claim_C6_move_solid_mesh.2 2 c6cells c6disp c6pos 7).2
      (by decide)

/-- A `dim`-vector (`dealii::Tensor<1,dim>` / `Point<dim>`), exact coordinates. -/
abbrev Vec (d : ℕ) := Fin d → ℚ

/-- A rank-2 tensor (`dealii::Tensor<2,dim>` / `SymmetricTensor<2,dim>`). -/
abbrev Mat (d : ℕ) := Fin d → Fin d → ℚ

/-- The identity tensor `Physics::Elasticity::StandardTensors<dim>::I`. -/
def matId (d : ℕ) : Mat d := fun i j => if i = j then 1 else 0

/-- The symmetric part `(g + gᵀ) / 2` of a velocity gradient. -/
def symGrad {d : ℕ} (g : Mat d) : Mat d := fun i j => (g i j + g j i) / 2

/-- Tensor-vector contraction, as in `stress * normal`. -/
def matVec {d : ℕ} (m : Mat d) (v : Vec d) : Vec d :=
  fun i => Finset.univ.sum fun j => m i j * v j

/-- The fluid Cauchy stress `-p I + 2 viscosity sym(grad v)` formed in both
transfer directions (`source/hyper_elasticity.cpp:1057-1060` and 1138-1142). -/
def fluidCauchyStress {d : ℕ} (viscosity p : ℚ) (grad_v : Mat d) : Mat d :=
  (-p) • matId d + (2 * viscosity) • symGrad grad_v

/-- Outcome of the `Initializing` phase of `MPI::FSI<dim>::run`. -/
inductive InitMode
  | resumed
  | fromScratch
deriving DecidableEq

/-- The `Initializing` phase of `MPI::FSI<dim>::run`
(`source/hyper_elasticity.cpp:1221-1244`): `success_load` is the conjunction
of the two checkpoint loads; the `AssertThrow` compares the restored solid and
fluid times with exact `==`; when the load did not succeed both solvers are
set up from scratch (at time 0), otherwise the orchestrator catches up its
global time to the restored timestep. -/
def fsiInitialize (solidLoadOk fluidLoadOk : Bool)
    (solidTime fluidTime : ℚ) : Except String InitMode :=
  let success_load := solidLoadOk && fluidLoadOk
  if solidTime = fluidTime then
    .ok (if success_load then .resumed else .fromScratch)
  else
    .error "Solid and fluid restart files have different time steps. Check and remove inconsistent restart files!"

/-- C4, counterexample: restored times `1` and `1 + 10^-30` agree within the
code base's own numerical tolerance `10^-12` (the one used by the time loop),
yet the startup raises the fatal consistency error, because the source
compares the two times with exact `==` rather than with a tolerance. -/
theorem claim_C4_counterexample :
    |(1 : ℚ) - (1 + 1/10^30)| ≤ 1/10^12 ∧
    fsiInitialize true true 1 (1 + 1/10^30) =
      .error "Solid and fluid restart files have different time steps. Check and remove inconsistent restart files!" := by
  constructor
  · norm_num [abs_le]
  · norm_num [fsiInitialize]

/-- C4, amended: after the checkpoint-restore attempt the solid and fluid
times are compared with exact equality; any difference, however small, raises
the fatal consistency error before any stepping, while exactly equal times
proceed, setting both solvers up from scratch at t = 0 exactly when the
restore did not succeed. -/
theorem claim_C4_checkpoint_time (solidLoadOk fluidLoadOk : Bool)
    (ts tf : ℚ) :
    (ts = tf → fsiInitialize solidLoadOk fluidLoadOk ts tf =
      .ok (if solidLoadOk && fluidLoadOk then .resumed else .fromScratch)) ∧
    (ts ≠ tf → fsiInitialize solidLoadOk fluidLoadOk ts tf =
      .error "Solid and fluid restart files have different time steps. Check and remove inconsistent restart files!") := by
  constructor
  · intro h
    simp [fsiInitialize, h]
  · intro h
    simp [fsiInitialize, h]

/-- Witness for `claim_C4_checkpoint_time` at concrete load flags and times. -/
theorem claim_C4_checkpoint_time_witness :
    fsiInitialize true true 1 1 = .ok .resumed ∧
    fsiInitialize true false 0 0 = .ok .fromScratch ∧
    fsiInitialize true true 1 2 =
      .error "Solid and fluid restart files have different time steps. Check and remove inconsistent restart files!" := by
  refine ⟨(claim_C4_checkpoint_time true true 1 1).1 rfl,
    (claim_C4_checkpoint_time true false 0 0).1 rfl,
    (claim_C4_checkpoint_time true true 1 2).2 (by norm_num)⟩

/-- The Newton iteration loop of `Solid::HyperElasticity<dim>::run_one_step`
(`source/hyper_elasticity.cpp:102-158`) and of
`Solid::MPI::SharedHyperElasticity<dim>::run_one_step`, abstracted over the
convergence test: `unconverged k` is the value of the `while` condition after
`k` Newton updates have been applied to the state. The `AssertThrow` at the
top of the loop body aborts with "Too many Newton iterations!" when the
counter has reached `parameters.solid_max_iterations` while the condition
still holds; on normal exit the number of Newton iterations used is
returned. -/
def newtonLoop (maxIter : ℕ) (unconverged : ℕ → Bool) (k : ℕ) :
    Except String ℕ :=
  if unconverged k then
    if h : k < maxIter then newtonLoop maxIter unconverged (k + 1)
    else .error "Too many Newton iterations!"
  else .ok k
termination_by maxIter - k
decreasing_by omega

lemma newtonLoop_ok_le (m : ℕ) (u : ℕ → Bool) :
    ∀ j k, m - k = j → k ≤ m → ∀ n, newtonLoop m u k = .ok n → n ≤ m := by
  intro j
  induction j with
  | zero =>
    intro k hj hk n h
    have hkm : k = m := le_antisymm hk (Nat.le_of_sub_eq_zero hj)
    subst hkm
    rw [newtonLoop] at h
    by_cases hu : u k
    · rw [if_pos hu, dif_neg (lt_irrefl k)] at h
      exact absurd h (by simp)
    · rw [if_neg hu] at h
      simp only [Except.ok.injEq] at h
      omega
  | succ j ih =>
    intro k hj hk n h
    rw [newtonLoop] at h
    by_cases hu : u k
    · rw [if_pos hu, dif_pos (by omega : k < m)] at h
      exact ih (k + 1) (by omega) (by omega) n h
    · rw [if_neg hu] at h
      simp only [Except.ok.injEq] at h
      omega

lemma newtonLoop_abort (m : ℕ) (u : ℕ → Bool)
    (hu : ∀ j, j ≤ m → u j = true) :
    ∀ j k, m - k = j → k ≤ m →
      newtonLoop m u k = .error "Too many Newton iterations!" := by
  intro j
  induction j with
  | zero =>
    intro k hj hk
    have hkm : k = m := le_antisymm hk (Nat.le_of_sub_eq_zero hj)
    subst hkm
    rw [newtonLoop, if_pos (hu k le_rfl), dif_neg (lt_irrefl k)]
  | succ j ih =>
    intro k hj hk
    rw [newtonLoop, if_pos (hu k hk), dif_pos (by omega : k < m)]
    exact ih (k + 1) (by omega) (by omega)

/-- C9, amended: if the Newton convergence criterion is still unmet when the
iteration counter reaches `parameters.solid_max_iterations`, the solver aborts
with the hard error "Too many Newton iterations!"; consequently every
completed timestep used at most `solid_max_iterations` Newton iterations
(exactly `solid_max_iterations` is possible, see the counterexample to the
original "strictly fewer" wording). -/
theorem claim_C9_newton_abort :
    (∀ (m : ℕ) (u : ℕ → Bool), (∀ j, j ≤ m → u j = true) →
      newtonLoop m u 0 = .error "Too many Newton iterations!") ∧
    (∀ (m : ℕ) (u : ℕ → Bool) (n : ℕ),
      newtonLoop m u 0 = .ok n → n ≤ m) := by
  constructor
  · intro m u hu
    exact newtonLoop_abort m u hu (m - 0) 0 rfl (Nat.zero_le m)
  · intro m u n h
    exact newtonLoop_ok_le m u (m - 0) 0 rfl (Nat.zero_le m) n h

/-- Witness for `claim_C9_newton_abort`: a run whose criterion never converges
within 1 allowed iteration aborts; a run converging after exactly 2 updates
with `solid_max_iterations = 2` completes with `2 ≤ 2` iterations. -/
theorem claim_C9_newton_abort_witness :
    newtonLoop 1 (fun _ => true) 0 = .error "Too many Newton iterations!" ∧
    (2 : ℕ) ≤ 2 := by
  refine ⟨claim_C9_newton_abort.1 1 (fun _ => true) (fun j _ => rfl), ?_⟩
  exact claim_C9_newton_abort.2 2 (fun k => decide (k < 2)) 2
    (by simp [newtonLoop])

/-- C9, counterexample to the claim as stated: with
`solid_max_iterations = 2` and a criterion that converges exactly when the
counter reaches 2, `run_one_step` completes normally after exactly 2 Newton
iterations, which is not strictly fewer than `solid_max_iterations`. -/
theorem claim_C9_counterexample :
    newtonLoop 2 (fun k => decide (k < 2)) 0 = .ok 2 ∧ ¬(2 < 2) := by
  constructor
  · simp [newtonLoop]
  · omega

/-- The per-face Neumann block of the solid `assemble_system` functions
(`source/hyper_elasticity.cpp:430-493`, the shared MPI hyperelastic variant
lines 433-496 and the shared linear-elastic variant lines 131-196, whose
conditions are identical): returns `none` when the face contributes no
surface load, otherwise the traction applied at each face quadrature point
`q`. The `prescribed` list is `parameters.solid_neumann_bcs[id]`, read only in
non-FSI runs. -/
def neumannFaceTraction (d : ℕ) (simulation_type neumann_bc_type : String)
    (solid_neumann_bcs : List ℕ) (boundary_id : ℕ) (at_boundary : Bool)
    (prescribed : List ℚ) (normal fsi_traction : ℕ → Vec d) :
    Option (ℕ → Vec d) :=
  if ¬ at_boundary then
    -- Not a boundary
    none
  else if simulation_type ≠ "FSI" ∧ boundary_id ∉ solid_neumann_bcs then
    -- Traction-free boundary, do nothing
    none
  else
    let prescribed_value := if simulation_type ≠ "FSI" then prescribed else []
    let traction0 : Vec d :=
      if simulation_type ≠ "FSI" ∧ neumann_bc_type = "Traction" then
        fun i => prescribed_value.getD i 0
      else fun _ => 0
    some fun q =>
      if simulation_type ≠ "FSI" ∧ neumann_bc_type = "Pressure" then
        fun i => prescribed_value.getD 0 0 * normal q i
      else if simulation_type = "FSI" then fsi_traction q
      else traction0

/-- C10: in an FSI simulation the solid assembly applies the stored
`fsi_traction` on every boundary face, whatever the face's boundary id, the
`solid_neumann_bcs` set and the configured Neumann type; the traction-free
skip for ids absent from `solid_neumann_bcs` only happens in non-FSI
simulations. -/
theorem claim_C10_fsi_traction_every_boundary_face :
    (∀ (d : ℕ) (neumann_bc_type : String) (bcs : List ℕ) (id : ℕ)
        (prescribed : List ℚ) (normal fsiT : ℕ → Vec d),
      neumannFaceTraction d "FSI" neumann_bc_type bcs id true prescribed
        normal fsiT = some fun q => fsiT q) ∧
    (∀ (d : ℕ) (simulation_type neumann_bc_type : String) (bcs : List ℕ)
        (id : ℕ) (prescribed : List ℚ) (normal fsiT : ℕ → Vec d),
      simulation_type ≠ "FSI" → id ∉ bcs →
      neumannFaceTraction d simulation_type neumann_bc_type bcs id true
        prescribed normal fsiT = none) := by
  constructor
  · intro d nbt bcs id prescribed normal fsiT
    simp [neumannFaceTraction]
  · intro d st nbt bcs id prescribed normal fsiT hst hid
    simp [neumannFaceTraction, hst, hid]

/-- Witness for `claim_C10_fsi_traction_every_boundary_face` at concrete
parameters: an FSI run applies the stored traction on a boundary face whose
id 7 is not in the (empty) Neumann set and whose type is "Traction"; a
stand-alone run skips a face with unlisted id. -/
theorem claim_C10_fsi_traction_witness :
    neumannFaceTraction 2 "FSI" "Traction" [] 7 true []
        (fun _ _ => 0) (fun _ _ => 1) = some (fun q => (fun _ _ => (1 : ℚ)) q) ∧
    neumannFaceTraction 2 "Solid" "Traction" [1, 2] 3 true [5]
        (fun _ _ => 0) (fun _ _ => 1) = none := by
  refine ⟨claim_C10_fsi_traction_every_boundary_face.1 2 "Traction" [] 7 []
      (fun _ _ => 0) (fun _ _ => 1),
    claim_C10_fsi_traction_every_boundary_face.2 2 "Solid" "Traction" [1, 2] 3
      [5] (fun _ _ => 0) (fun _ _ => 1) (by decide) (by decide)⟩

/-- Attributes of one solid cell face relevant to `MPI::FSI<dim>::find_solid_bc`:
whether the face is at the boundary, and whether a Dirichlet condition is
prescribed on it (the property named by the source comment "Current face is at
boundary and without Dirichlet bc."). -/
structure SolidFaceInfo where
  atBoundary : Bool
  hasDirichletBc : Bool
deriving DecidableEq

/-- The faces whose `fsi_traction` records `find_solid_bc` updates
(`source/hyper_elasticity.cpp:1097-1147`): the only condition tested before
entering the quadrature loop is `s_cell->face(f)->at_boundary()`. -/
def findSolidBcUpdatedFaces (faces : List SolidFaceInfo) : List SolidFaceInfo :=
  faces.filter fun f => f.atBoundary

/-- Modelled from the spec: "for every solid boundary face without a
prescribed Dirichlet condition" — the set of faces the specification says
receive updated tractions. -/
def specSolidBcUpdatedFaces (faces : List SolidFaceInfo) : List SolidFaceInfo :=
  faces.filter fun f => f.atBoundary && !f.hasDirichletBc

/-- The traction stored at one face quadrature point by `find_solid_bc`
(`source/hyper_elasticity.cpp:1103-1144`): the per-rank interpolated pressures
and velocity gradients are reduced with `Utilities::MPI::sum`, the stress
`-p I + 2 viscosity sym(grad v)` is formed from the summed values, and the
traction is the stress contracted with the face normal. -/
def solidFaceTraction {d : ℕ} (viscosity : ℚ) (rank_p : List ℚ)
    (rank_grad : List (Mat d)) (normal : Vec d) : Vec d :=
  let global_p := rank_p.sum
  let global_grad : Mat d := fun i j => (rank_grad.map fun g => g i j).sum
  matVec (fluidCauchyStress viscosity global_p global_grad) normal

/-- C5, divergence of the face filter and correctness of the stored traction:
(i) a face is updated by `find_solid_bc` exactly when it is at the boundary —
the prescribed-Dirichlet property is never consulted, contrary to the claim
(and to the source's own comment); (ii) concretely, a boundary face carrying a
Dirichlet condition is updated by the code but excluded by the specification's
face set; (iii) on a single rank the stored traction is the fluid Cauchy
stress `-p I + 2 viscosity sym(grad v)` applied to the face normal. -/
theorem claim_C5_find_solid_bc :
    (∀ (faces : List SolidFaceInfo) (f : SolidFaceInfo),
      f ∈ findSolidBcUpdatedFaces faces ↔ f ∈ faces ∧ f.atBoundary = true) ∧
    ((⟨true, true⟩ : SolidFaceInfo) ∈
        findSolidBcUpdatedFaces [⟨true, true⟩] ∧
      (⟨true, true⟩ : SolidFaceInfo) ∉
        specSolidBcUpdatedFaces [⟨true, true⟩]) ∧
    (∀ (d : ℕ) (viscosity p : ℚ) (g : Mat d) (n : Vec d),
      solidFaceTraction viscosity [p] [g] n =
        matVec (fluidCauchyStress viscosity p g) n) := by
  refine ⟨?_, ⟨?_, ?_⟩, ?_⟩
  · intro faces f
    simp [findSolidBcUpdatedFaces, List.mem_filter]
  · simp [findSolidBcUpdatedFaces]
  · simp [specSolidBcUpdatedFaces]
  · intro d viscosity p g n
    simp [solidFaceTraction]

/-- The per-quadrature-point record of the fluid solver's `CellProperty` as
written by the quadrature loop of `find_fluid_bc`. -/
structure QPRecord (d : ℕ) where
  indicator : Bool
  fsi_acceleration : Vec d
  fsi_stress : Mat d

/-- The body of the quadrature-point loop of `MPI::FSI<dim>::find_fluid_bc`
(`source/hyper_elasticity.cpp:1019-1061`) for one quadrature point: the
indicator is recomputed by the classifier and both jump fields are zeroed;
for a point outside the solid the loop continues; otherwise the solid
acceleration and stress are interpolated and the two jump assignments are
executed, each guarded by `if (ptr[q]->indicator == 0)` exactly as in the
source (a condition that cannot hold past the `continue`). `solid_acc` and
`solid_sigma` are the interpolated solid acceleration and stress at the
point, `p` and `sym_grad_v` the fluid pressure and symmetric velocity
gradient at the quadrature point. -/
def fsiQpUpdate {d : ℕ} (inSolid : Vec d → Bool)
    (solid_rho fluid_rho viscosity : ℚ) (gravity : Vec d)
    (point : Vec d) (solid_acc : Vec d) (solid_sigma : Mat d)
    (p : ℚ) (sym_grad_v : Mat d) : QPRecord d :=
  let ind := inSolid point
  if ind = false then
    { indicator := ind
      fsi_acceleration := fun _ => 0
      fsi_stress := fun _ _ => 0 }
  else
    { indicator := ind
      fsi_acceleration := fun i =>
        if ind = false then
          (solid_rho - fluid_rho) * (gravity i - solid_acc i)
        else 0
      fsi_stress :=
        if ind = false then
          fun i j =>
            fluidCauchyStress viscosity p sym_grad_v i j - solid_sigma i j
        else fun _ _ => 0 }

/-- Modelled from the spec: the acceleration jump
`(solid_rho - fluid_rho) * (gravity - solid_acceleration)` the claim says is
stored at in-solid quadrature points. -/
def specFsiAcceleration {d : ℕ} (solid_rho fluid_rho : ℚ)
    (gravity solid_acc : Vec d) : Vec d :=
  fun i => (solid_rho - fluid_rho) * (gravity i - solid_acc i)

/-- Modelled from the spec: the stress jump `fluid stress - solid stress` the
claim says is stored at in-solid quadrature points. -/
def specFsiStress {d : ℕ} (viscosity p : ℚ)
    (sym_grad_v solid_sigma : Mat d) : Mat d :=
  fun i j => fluidCauchyStress viscosity p sym_grad_v i j - solid_sigma i j

/-- C1, what the code actually stores: for every quadrature point the
indicator is the classifier's verdict, but `fsi_acceleration` and
`fsi_stress` always remain zero — the two assignments are dead because they
are guarded by `indicator == 0` after the `continue` on `indicator == 0` —
whereas at the concrete failing input (densities 2 and 1, gravity `(0, -1)`,
solid fields zero) the claim's acceleration jump is `(0, -1) ≠ 0`. -/
theorem claim_C1_fsi_force_dead_guard :
    (∀ (d : ℕ) (inSolid : Vec d → Bool) (ρs ρf μ : ℚ) (g pt a : Vec d)
        (σ : Mat d) (p : ℚ) (sg : Mat d),
      (fsiQpUpdate inSolid ρs ρf μ g pt a σ p sg).indicator = inSolid pt ∧
      (fsiQpUpdate inSolid ρs ρf μ g pt a σ p sg).fsi_acceleration
        = (fun _ => 0) ∧
      (fsiQpUpdate inSolid ρs ρf μ g pt a σ p sg).fsi_stress
        = (fun _ _ => 0)) ∧
    specFsiAcceleration 2 1 (fun i : Fin 2 => if i = 1 then -1 else 0)
        (fun _ => 0) 1 = -1 ∧
    (fsiQpUpdate (fun _ => true) 2 1 1 (fun i : Fin 2 => if i = 1 then -1 else 0)
        (fun _ => 0) (fun _ => 0) (fun _ _ => 0) 0
        (fun _ _ => 0)).fsi_acceleration 1 = 0 := by
  refine ⟨?_, ?_, ?_⟩
  · intro d inSolid ρs ρf μ g pt a σ p sg
    unfold fsiQpUpdate
    by_cases h : inSolid pt = false
    · simp [h]
    · simp [h]
  · norm_num [specFsiAcceleration]
  · norm_num [fsiQpUpdate]

/-- The data of one fluid cell seen by the support-point loop of
`MPI::FSI<dim>::find_fluid_bc` (`source/hyper_elasticity.cpp:940-1012`):
`n` unit support points of the fluid finite element; per-index the global dof
(`dof_indices[i]`), the base group (`system_to_base_index(i).first.first`,
0 = velocity, 1 = pressure), the vector component
(`system_to_component_index(i).first`), the unit support point and the
physical support point. -/
structure CellCtx (d : ℕ) where
  n : ℕ
  dofIndex : ℕ → ℕ
  iGroup : ℕ → ℕ
  comp : ℕ → ℕ
  unitPt : ℕ → Vec d
  supportPt : ℕ → Vec d

/-- The geometric and field oracles consumed by `find_fluid_bc`: the
point-in-solid classifier, the cell locator / interpolator success test
(`interpolator.found_cell()`), the interpolated solid velocity by component
(`interpolator.point_value` on the gathered solid velocity) and the fluid
`present_solution` by global dof. -/
structure FsiEnv (d : ℕ) where
  inSolid : Vec d → Bool
  foundCell : Vec d → Bool
  solidVel : Vec d → ℕ → ℚ
  presentSol : ℕ → ℚ

/-- The in-cell support-point test of `find_fluid_bc` (lines 973-981):
`inside` remains true exactly when no unit coordinate has absolute value
below `1e-5`; such support points are skipped. -/
def interiorSupportPoint {d : ℕ} (u : Vec d) : Bool :=
  decide (∀ k : Fin d, ¬ |u k| < 1 / 100000)

/-- The action `find_fluid_bc` takes for one support point
(`source/hyper_elasticity.cpp:961-1012`). -/
inductive DofAction
  | skipTouched
  | skipPressure
  | skipInterior
  | skipOutside
  | fatal
  | constrain (line : ℕ) (inhom : ℚ)
deriving DecidableEq

/-- The decision sequence of the support-point loop body, in source order:
already-touched dofs, pressure dofs and in-cell support points are skipped
before the dof is marked; a point outside the solid is skipped silently; a
point inside the solid whose containing solid cell cannot be found is fatal;
otherwise a Dirichlet line is added for the dof with inhomogeneity
`fluid_velocity[index] - present_solution(line)`. -/
def dofAction {d : ℕ} (env : FsiEnv d) (ctx : CellCtx d)
    (touched : ℕ → Bool) (i : ℕ) : DofAction :=
  if touched (ctx.dofIndex i) then .skipTouched
  else if ctx.iGroup i = 1 then .skipPressure
  else if interiorSupportPoint (ctx.unitPt i) then .skipInterior
  else if ¬ env.inSolid (ctx.supportPt i) then .skipOutside
  else if ¬ env.foundCell (ctx.supportPt i) then .fatal
  else
    .constrain (ctx.dofIndex i)
      (env.solidVel (ctx.supportPt i) (ctx.comp i) -
        env.presentSol (ctx.dofIndex i))

/-- The support-point loop of `find_fluid_bc` over the indices `is`, threading
the global `dof_touched` array and accumulating the lines added to
`inner_nonzero` (paired with their `set_inhomogeneity` values) and to
`inner_zero` (`add_line` leaves the inhomogeneity zero); the
`AssertThrow(interpolator.found_cell(), ...)` aborts the run. -/
def fluidBcLoop {d : ℕ} (env : FsiEnv d) (ctx : CellCtx d) :
    List ℕ → (ℕ → Bool) → List (ℕ × ℚ) → List (ℕ × ℚ) →
    Except String ((ℕ → Bool) × List (ℕ × ℚ) × List (ℕ × ℚ))
  | [], touched, nz, z => .ok (touched, nz, z)
  | i :: is, touched, nz, z =>
    match dofAction env ctx touched i with
    | .skipTouched => fluidBcLoop env ctx is touched nz z
    | .skipPressure => fluidBcLoop env ctx is touched nz z
    | .skipInterior => fluidBcLoop env ctx is touched nz z
    | .skipOutside =>
        fluidBcLoop env ctx is
          (Function.update touched (ctx.dofIndex i) true) nz z
    | .fatal => .error "Cannot find point in solid"
    | .constrain line inhom =>
        fluidBcLoop env ctx is (Function.update touched line true)
          (nz ++ [(line, inhom)]) (z ++ [(line, 0)])

/-- The support-point phase of `find_fluid_bc` for one cell, entered with the
running global `dof_touched` state and empty per-call constraint sets. -/
def findFluidBcCell {d : ℕ} (env : FsiEnv d) (ctx : CellCtx d)
    (touched : ℕ → Bool) :
    Except String ((ℕ → Bool) × List (ℕ × ℚ) × List (ℕ × ℚ)) :=
  fluidBcLoop env ctx (List.range ctx.n) touched [] []

lemma dofAction_constrain_inv {d : ℕ} (env : FsiEnv d) (ctx : CellCtx d)
    (touched : ℕ → Bool) (i : ℕ) (line : ℕ) (inhom : ℚ)
    (h : dofAction env ctx touched i = .constrain line inhom) :
    line = ctx.dofIndex i ∧
    inhom = env.solidVel (ctx.supportPt i) (ctx.comp i) -
      env.presentSol (ctx.dofIndex i) := by
  unfold dofAction at h
  split_ifs at h
  cases h
  exact ⟨rfl, rfl⟩

lemma fluidBcLoop_inv {d : ℕ} (env : FsiEnv d) (ctx : CellCtx d) :
    ∀ (is : List ℕ) (touched t : ℕ → Bool) (nz z nz' z' : List (ℕ × ℚ)),
      fluidBcLoop env ctx is touched nz z = .ok (t, nz', z') →
      ∃ suffix : List (ℕ × ℚ),
        nz' = nz ++ suffix ∧
        z' = z ++ suffix.map (fun e => (e.1, 0)) ∧
        ∀ e ∈ suffix, ∃ i ∈ is, e.1 = ctx.dofIndex i ∧
          e.2 = env.solidVel (ctx.supportPt i) (ctx.comp i) -
            env.presentSol (ctx.dofIndex i) := by
  intro is
  induction is with
  | nil =>
    intro touched t nz z nz' z' h
    rw [fluidBcLoop] at h
    simp only [Except.ok.injEq, Prod.mk.injEq] at h
    refine ⟨[], by simp [h.2.1.symm], by simp [h.2.2.symm], by simp⟩
  | cons i is ih =>
    intro touched t nz z nz' z' h
    rw [fluidBcLoop] at h
    cases hact : dofAction env ctx touched i with
    | skipTouched =>
      rw [hact] at h
      obtain ⟨suffix, h1, h2, h3⟩ := ih _ _ _ _ _ _ h
      exact ⟨suffix, h1, h2, fun e he =>
        (h3 e he).imp fun j hj => ⟨List.mem_cons_of_mem i hj.1, hj.2⟩⟩
    | skipPressure =>
      rw [hact] at h
      obtain ⟨suffix, h1, h2, h3⟩ := ih _ _ _ _ _ _ h
      exact ⟨suffix, h1, h2, fun e he =>
        (h3 e he).imp fun j hj => ⟨List.mem_cons_of_mem i hj.1, hj.2⟩⟩
    | skipInterior =>
      rw [hact] at h
      obtain ⟨suffix, h1, h2, h3⟩ := ih _ _ _ _ _ _ h
      exact ⟨suffix, h1, h2, fun e he =>
        (h3 e he).imp fun j hj => ⟨List.mem_cons_of_mem i hj.1, hj.2⟩⟩
    | skipOutside =>
      rw [hact] at h
      obtain ⟨suffix, h1, h2, h3⟩ := ih _ _ _ _ _ _ h
      exact ⟨suffix, h1, h2, fun e he =>
        (h3 e he).imp fun j hj => ⟨List.mem_cons_of_mem i hj.1, hj.2⟩⟩
    | fatal =>
      rw [hact] at h
      exact absurd h (by simp)
    | constrain line inhom =>
      rw [hact] at h
      obtain ⟨suffix, h1, h2, h3⟩ := ih _ _ _ _ _ _ h
      obtain ⟨hl, hv⟩ := dofAction_constrain_inv env ctx touched i line inhom hact
      refine ⟨(line, inhom) :: suffix, by simp [h1], by simp [h2], ?_⟩
      intro e he
      rcases List.mem_cons.mp he with rfl | hmem
      · exact ⟨i, List.mem_cons_self i is, hl, by rw [hv, hl]⟩
      · exact ((h3 e hmem).imp fun j hj => ⟨List.mem_cons_of_mem i hj.1, hj.2⟩)

/-- C2: (i) a support point whose dof is untouched, that is not a pressure
dof, not an in-cell support point, lies inside the solid and whose containing
solid cell is found, gets a Dirichlet line for its dof whose inhomogeneity is
the interpolated solid velocity component minus the fluid `present_solution`
value at that dof (an increment); (ii) whenever the per-cell loop completes,
the `inner_zero` lines are exactly the `inner_nonzero` lines with zero
inhomogeneity, and every `inner_nonzero` entry carries such an increment for
its support point. -/
theorem claim_C2_dirichlet_increment :
    (∀ (d : ℕ) (env : FsiEnv d) (ctx : CellCtx d) (touched : ℕ → Bool)
        (i : ℕ),
      touched (ctx.dofIndex i) = false →
      ctx.iGroup i ≠ 1 →
      interiorSupportPoint (ctx.unitPt i) = false →
      env.inSolid (ctx.supportPt i) = true →
      env.foundCell (ctx.supportPt i) = true →
      dofAction env ctx touched i =
        .constrain (ctx.dofIndex i)
          (env.solidVel (ctx.supportPt i) (ctx.comp i) -
            env.presentSol (ctx.dofIndex i))) ∧
    (∀ (d : ℕ) (env : FsiEnv d) (ctx : CellCtx d) (touched t : ℕ → Bool)
        (nz z : List (ℕ × ℚ)),
      findFluidBcCell env ctx touched = .ok (t, nz, z) →
      z = nz.map (fun e => (e.1, 0)) ∧
      ∀ e ∈ nz, ∃ i ∈ List.range ctx.n, e.1 = ctx.dofIndex i ∧
        e.2 = env.solidVel (ctx.supportPt i) (ctx.comp i) -
          env.presentSol (ctx.dofIndex i)) := by
  constructor
  · intro d env ctx touched i h1 h2 h3 h4 h5
    unfold dofAction
    rw [if_neg (by simp [h1]), if_neg h2, if_neg (by simp [h3]),
      if_neg (by simp [h4]), if_neg (by simp [h5])]
  · intro d env ctx touched t nz z h
    obtain ⟨suffix, h1, h2, h3⟩ :=
      fluidBcLoop_inv env ctx (List.range ctx.n) touched t [] [] nz z h
    subst h1
    constructor
    · simpa using h2
    · simpa using h3

/-- Concrete one-support-point fluid cell for the C2 and C7 witnesses: a
velocity dof 0 of component 0 whose unit support point is the origin (so it is
not an in-cell point). -/
def c2ctx : CellCtx 2 where
  n := 1
  dofIndex := fun _ => 0
  iGroup := fun _ => 0
  comp := fun _ => 0
  unitPt := fun _ _ => 0
  supportPt := fun _ _ => 0

/-- Concrete oracles for the C2 witness: every point lies in the solid and is
locatable; the solid velocity is 3 and the fluid value 1. -/
def c2env : FsiEnv 2 where
  inSolid := fun _ => true
  foundCell := fun _ => true
  solidVel := fun _ _ => 3
  presentSol := fun _ => 1

/-- Witness for `claim_C2_dirichlet_increment`: for the concrete cell the
support point is constrained with increment `3 - 1`, and the completed loop
pairs the zero set with the nonzero set. -/
theorem claim_C2_dirichlet_increment_witness :
    dofAction c2env c2ctx (fun _ => false) 0 = .constrain 0 ((3 : ℚ) - 1) ∧
    ([((0 : ℕ), (0 : ℚ))] : List (ℕ × ℚ)) =
      ([((0 : ℕ), (3 : ℚ) - 1)] : List (ℕ × ℚ)).map (fun e => (e.1, 0)) := by
  constructor
  · exact claim_C2_dirichlet_increment.1 2 c2env c2ctx (fun _ => false) 0
      rfl (by simp [c2ctx]) (by norm_num [interiorSupportPoint, c2ctx])
      rfl rfl
  · exact (claim_C2_dirichlet_increment.2 2 c2env c2ctx (fun _ => false)
      (Function.update (fun _ => false) 0 true)
      [(0, (3 : ℚ) - 1)] [(0, 0)]
      (by norm_num [findFluidBcCell, fluidBcLoop, dofAction,
        interiorSupportPoint, c2env, c2ctx, List.range_succ])).1

/-- C7: under the loop's preconditions (untouched velocity dof at a
non-in-cell support point), a support point not classified inside the solid
is skipped silently — the dof is only marked touched and the loop continues
with no constraint and no error — whereas a support point classified inside
the solid whose containing solid cell the locator and interpolator cannot
find makes the whole transfer abort with the diagnostic
"Cannot find point in solid". -/
theorem claim_C7_skip_or_abort :
    (∀ (d : ℕ) (env : FsiEnv d) (ctx : CellCtx d) (touched : ℕ → Bool)
        (i : ℕ) (is : List ℕ) (nz z : List (ℕ × ℚ)),
      touched (ctx.dofIndex i) = false → ctx.iGroup i ≠ 1 →
      interiorSupportPoint (ctx.unitPt i) = false →
      env.inSolid (ctx.supportPt i) = false →
      dofAction env ctx touched i = .skipOutside ∧
      fluidBcLoop env ctx (i :: is) touched nz z =
        fluidBcLoop env ctx is
          (Function.update touched (ctx.dofIndex i) true) nz z) ∧
    (∀ (d : ℕ) (env : FsiEnv d) (ctx : CellCtx d) (touched : ℕ → Bool)
        (i : ℕ) (is : List ℕ) (nz z : List (ℕ × ℚ)),
      touched (ctx.dofIndex i) = false → ctx.iGroup i ≠ 1 →
      interiorSupportPoint (ctx.unitPt i) = false →
      env.inSolid (ctx.supportPt i) = true →
      env.foundCell (ctx.supportPt i) = false →
      dofAction env ctx touched i = .fatal ∧
      fluidBcLoop env ctx (i :: is) touched nz z =
        .error "Cannot find point in solid") := by
  constructor
  · intro d env ctx touched i is nz z h1 h2 h3 h4
    have hact : dofAction env ctx touched i = .skipOutside := by
      unfold dofAction
      rw [if_neg (by simp [h1]), if_neg h2, if_neg (by simp [h3]),
        if_pos (by simp [h4])]
    refine ⟨hact, ?_⟩
    rw [fluidBcLoop, hact]
  · intro d env ctx touched i is nz z h1 h2 h3 h4 h5
    have hact : dofAction env ctx touched i = .fatal := by
      unfold dofAction
      rw [if_neg (by simp [h1]), if_neg h2, if_neg (by simp [h3]),
        if_neg (by simp [h4]), if_pos (by simp [h5])]
    refine ⟨hact, ?_⟩
    rw [fluidBcLoop, hact]

/-- Concrete oracles for the C7 witness, outside case: no point is in the
solid. -/
def c7envOut : FsiEnv 2 where
  inSolid := fun _ => false
  foundCell := fun _ => false
  solidVel := fun _ _ => 0
  presentSol := fun _ => 0

/-- Concrete oracles for the C7 witness, inconsistent case: every point is in
the solid but no containing cell is ever found. -/
def c7envIn : FsiEnv 2 where
  inSolid := fun _ => true
  foundCell := fun _ => false
  solidVel := fun _ _ => 0
  presentSol := fun _ => 0

/-- Witness for `claim_C7_skip_or_abort` on the concrete one-point cell. -/
theorem claim_C7_skip_or_abort_witness :
    (dofAction c7envOut c2ctx (fun _ => false) 0 = .skipOutside ∧
      fluidBcLoop c7envOut c2ctx [0] (fun _ => false) [] [] =
        fluidBcLoop c7envOut c2ctx []
          (Function.update (fun _ => false) (c2ctx.dofIndex 0) true) [] []) ∧
    (dofAction c7envIn c2ctx (fun _ => false) 0 = .fatal ∧
      fluidBcLoop c7envIn c2ctx [0] (fun _ => false) [] [] =
        .error "Cannot find point in solid") := by
  constructor
  · exact claim_C7_skip_or_abort.1 2 c7envOut c2ctx (fun _ => false) 0 [] [] []
      rfl (by simp [c2ctx]) (by norm_num [interiorSupportPoint, c2ctx]) rfl
  · exact claim_C7_skip_or_abort.2 2 c7envIn c2ctx (fun _ => false) 0 [] [] []
      rfl (by simp [c2ctx]) (by norm_num [interiorSupportPoint, c2ctx]) rfl rfl

/-- The observable operations of the time loop of `MPI::FSI<dim>::run`
(`source/hyper_elasticity.cpp:1262-1300`). -/
inductive FsiEvent
  | findSolidBcEv
  | assembleSolidEv
  | solidStepEv
  | updateSolidBoxEv
  | makeConstraintsEv
  | resetNonzeroEv
  | findFluidBcEv
  | fluidStepEv
  | timeIncrementEv
  | refineMeshEv
  | setupCellHintsEv
  | saveSolidCheckpointEv
  | saveFluidCheckpointEv
deriving DecidableEq

/-- One iteration of the `while` body of `MPI::FSI<dim>::run`
(`source/hyper_elasticity.cpp:1264-1299`), translated statement by statement
into the trace of operations it performs, given the flags the body reads:
`success_load` (never cleared after a restore), `first_step`, and the two
time predicates queried after `time.increment()`. -/
def fsiLoopBody (success_load first_step time_to_refine time_to_save : Bool) :
    List FsiEvent :=
  let tr : List FsiEvent := []
  let tr := tr ++ [.findSolidBcEv]
  let tr := if success_load then tr ++ [.assembleSolidEv] else tr
  let tr := tr ++ [.solidStepEv]
  let tr := tr ++ [.updateSolidBoxEv]
  let tr := tr ++ [.makeConstraintsEv]
  let tr := if first_step = false then tr ++ [.resetNonzeroEv] else tr
  let tr := tr ++ [.findFluidBcEv]
  let tr := tr ++ [.fluidStepEv]
  let tr := tr ++ [.timeIncrementEv]
  let tr := if time_to_refine then tr ++ [.refineMeshEv, .setupCellHintsEv]
    else tr
  let tr := if time_to_save then
      tr ++ [.saveSolidCheckpointEv, .saveFluidCheckpointEv]
    else tr
  tr

/-- The `while (time.end() - time.current() > 1e-12)` loop of
`MPI::FSI<dim>::run`: `t` is the current time and `step` the timestep index
(both advanced by `time.increment()` inside the body), `first` the
`first_step` flag (initially `!success_load`, cleared after every iteration).
`fuel` bounds the recursion — the source loop terminates only because the
time grows by `delta_t` each iteration. -/
def fsiRunLoop (endTime dt : ℚ) (success_load : Bool)
    (time_to_refine time_to_save : ℕ → Bool) :
    ℕ → ℚ → ℕ → Bool → List FsiEvent
  | 0, _, _, _ => []
  | fuel + 1, t, step, first =>
    if endTime - t > 1 / 10 ^ 12 then
      fsiLoopBody success_load first
          (time_to_refine (step + 1)) (time_to_save (step + 1)) ++
        fsiRunLoop endTime dt success_load time_to_refine time_to_save
          fuel (t + dt) (step + 1) false
    else []

lemma fsiLoopBody_ne_nil (s f r v : Bool) : fsiLoopBody s f r v ≠ [] := by
  cases s <;> cases f <;> cases r <;> cases v <;> decide

/-- C8: (i) each iteration of the time loop performs, in source order, the
fluid-to-solid traction transfer, then (when restored from a checkpoint) the
solid re-assembly, then one solid timestep, then the solid bounding-box
recomputation, then the rebuild of the fluid constraints with the nonzero set
reset to the zero baseline on every step that is not the first, then the
solid-to-fluid transfer, one fluid timestep and the global time increment
(followed by the periodic refine and checkpoint blocks); (ii) an iteration
runs exactly when the remaining time `endTime - t` exceeds the `1e-12`
tolerance (and fuel remains); the body of a running iteration is never empty,
and once the remaining time is within tolerance the loop emits nothing. -/
theorem claim_C8_time_loop :
    (∀ success_load first_step ttr tts : Bool,
      fsiLoopBody success_load first_step ttr tts =
        [.findSolidBcEv] ++
        (if success_load then [.assembleSolidEv] else []) ++
        [.solidStepEv, .updateSolidBoxEv, .makeConstraintsEv] ++
        (if first_step = false then [.resetNonzeroEv] else []) ++
        [.findFluidBcEv, .fluidStepEv, .timeIncrementEv] ++
        (if ttr then [.refineMeshEv, .setupCellHintsEv] else []) ++
        (if tts then [.saveSolidCheckpointEv, .saveFluidCheckpointEv]
          else [])) ∧
    (∀ (endTime dt : ℚ) (s : Bool) (ttr tts : ℕ → Bool) (fuel : ℕ) (t : ℚ)
        (step : ℕ) (first : Bool),
      (endTime - t ≤ 1 / 10 ^ 12 →
        fsiRunLoop endTime dt s ttr tts fuel t step first = []) ∧
      (endTime - t > 1 / 10 ^ 12 →
        fsiRunLoop endTime dt s ttr tts (fuel + 1) t step first =
          fsiLoopBody s first (ttr (step + 1)) (tts (step + 1)) ++
            fsiRunLoop endTime dt s ttr tts fuel (t + dt) (step + 1) false) ∧
      (endTime - t > 1 / 10 ^ 12 →
        fsiRunLoop endTime dt s ttr tts (fuel + 1) t step first ≠ [])) := by
  constructor
  · intro s f r v
    cases s <;> cases f <;> cases r <;> cases v <;> rfl
  · intro endTime dt s ttr tts fuel t step first
    refine ⟨?_, ?_, ?_⟩
    · intro h
      cases fuel with
      | zero => rfl
      | succ fuel => rw [fsiRunLoop, if_neg (not_lt.mpr h)]
    · intro h
      rw [fsiRunLoop, if_pos h]
    · intro h
      rw [fsiRunLoop, if_pos h]
      intro hemp
      exact fsiLoopBody_ne_nil s first (ttr (step + 1)) (tts (step + 1))
        (List.append_eq_nil.mp hemp).1
/-- Witness for `claim_C8_time_loop` at a concrete configuration: one step of
a non-restored run with `endTime = 1`, `dt = 1` starting at `t = 0` (so the
guard holds), followed by loop exit at `t = 1`. -/
theorem claim_C8_time_loop_witness :
    fsiLoopBody false true false false =
      [.findSolidBcEv] ++ [] ++
      [.solidStepEv, .updateSolidBoxEv, .makeConstraintsEv] ++ [] ++
      [.findFluidBcEv, .fluidStepEv, .timeIncrementEv] ++ [] ++ [] ∧
    fsiRunLoop 1 1 false (fun _ => false) (fun _ => false) 1 (0 + 1) (0 + 1)
      false = [] ∧
    fsiRunLoop 1 1 false (fun _ => false) (fun _ => false) (1 + 1) 0 0 true =
      fsiLoopBody false true false false ++
        fsiRunLoop 1 1 false (fun _ => false) (fun _ => false) 1 (0 + 1)
          (0 + 1) false ∧
    fsiRunLoop 1 1 false (fun _ => false) (fun _ => false) (1 + 1) 0 0 true
      ≠ [] := by
  refine ⟨claim_C8_time_loop.1 false true false false,
    ((claim_C8_time_loop.2 1 1 false (fun _ => false) (fun _ => false)
      1 (0 + 1) (0 + 1) false).1 (by norm_num)), ?_, ?_⟩
  · exact (claim_C8_time_loop.2 1 1 false (fun _ => false) (fun _ => false)
      1 0 0 true).2.1 (by norm_num)
  · exact (claim_C8_time_loop.2 1 1 false (fun _ => false) (fun _ => false)
      1 0 0 true).2.2 (by norm_num)
